import Mathlib

/-!
Verification development for the query-safety and transaction-routing
subsystem of a Redshift MCP server.

The SQL-text validators (`validateSelectOnlyQuery`,
`containsNestedModifications`), the security validator
(`SecurityValidator.validateSqlQuery`, `validateIdentifier`), the federated
("Spectrum") table classifier (`isExternalTableQuery` with its three
reference-extraction regexes) and the transaction router
(`executeSpectrumQuery` with its secure and traditional sub-paths, and the
`handleQueryTool` entry point) are embedded as executable Lean functions.
JavaScript regular-expression tests are translated into direct scanning
functions with the same matching semantics (character classes, word
boundaries, greedy and lazy repetition, the fact that `.` does not match
line terminators while `[^']` does).  Strings are modelled as `List Char`;
database and logging collaborators are modelled as explicit environments,
and every call issued to the connection provider is recorded in a trace.
-/

namespace RedshiftMcp

/-- SQL text, modelled as a list of characters. -/
abbrev Str := List Char

/-- JavaScript `\s` (also the set removed by `String.prototype.trim`):
whitespace and line terminators. -/
def isJsSpace (c : Char) : Bool :=
  c = ' ' || c = '\t' || c = '\n' || c = '\x0b' || c = '\x0c' || c = '\r' ||
  c.val = 0xa0 || c.val = 0x1680 ||
  (0x2000 ≤ c.val && c.val ≤ 0x200a) ||
  c.val = 0x2028 || c.val = 0x2029 || c.val = 0x202f || c.val = 0x205f ||
  c.val = 0x3000 || c.val = 0xfeff

/-- JavaScript line terminators: the characters that `.` does not match. -/
def isLineTerm (c : Char) : Bool :=
  c = '\n' || c = '\r' || c.val = 0x2028 || c.val = 0x2029

/-- JavaScript `[A-Za-z_]` (start of an identifier in the extraction
patterns). -/
def isAlphaUs (c : Char) : Bool :=
  ('a' ≤ c && c ≤ 'z') || ('A' ≤ c && c ≤ 'Z') || c = '_'

/-- JavaScript `\w`, the word characters `[A-Za-z0-9_]`; also the class used
by the `\b` word-boundary assertion. -/
def isWordChar (c : Char) : Bool :=
  isAlphaUs c || ('0' ≤ c && c ≤ '9')

/-- ASCII lower-casing, the fragment of `String.prototype.toLowerCase`
exercised by the SQL keywords and patterns of this subsystem. -/
def jsToLower (c : Char) : Char := c.toLower

/-- `String.prototype.trim`: strip leading and trailing whitespace. -/
def jsTrim (l : Str) : Str :=
  ((l.dropWhile isJsSpace).reverse.dropWhile isJsSpace).reverse

/-- Try to consume the literal `pat` at the head of `l` (exact characters),
returning the rest. -/
def dropLit : Str → Str → Option Str
  | [], l => some l
  | _ :: _, [] => none
  | p :: ps, c :: cs => if p = c then dropLit ps cs else none

/-- Try to consume the literal `pat` (given in lower case) at the head of
`l`, case-insensitively (the `/i` flag), returning the rest. -/
def dropLitCI : Str → Str → Option Str
  | [], l => some l
  | _ :: _, [] => none
  | p :: ps, c :: cs => if p = jsToLower c then dropLitCI ps cs else none

/-- Does some suffix of `l` satisfy `p`?  This is regex matching "anywhere
in the text" for a pattern with no anchors: try every start position. -/
def anyTail (p : Str → Bool) : Str → Bool
  | [] => p []
  | c :: cs => p (c :: cs) || anyTail p cs

/-- Scan `l` trying `p` at every position that sits at a `\b` word boundary
before a word character; `prev` records whether the previous character was a
word character (`false` at the start of the input). -/
def scanBoundary (p : Str → Bool) : Bool → Str → Bool
  | _, [] => false
  | prev, c :: cs => (!prev && p (c :: cs)) || scanBoundary p (isWordChar c) cs

/-- Match a literal keyword followed by one `\s` character (the shape
`kw\s` appearing in the prohibited patterns). -/
def litThenWs : Str → Str → Bool
  | [], c :: _ => isJsSpace c
  | [], [] => false
  | _ :: _, [] => false
  | k :: ks, c :: cs => k = c && litThenWs ks cs

/-- Match a literal keyword followed by a `\b` word boundary (end of input
or a non-word character). -/
def litThenNonWord : Str → Str → Bool
  | [], [] => true
  | [], c :: _ => !isWordChar c
  | _ :: _, [] => false
  | k :: ks, c :: cs => k = c && litThenNonWord ks cs

/-! ### `validateSelectOnlyQuery` (src/unnamed/part_000, lines 1021-1044) -/

/-- The mutation keywords of the first prohibited pattern
`\b(insert|update|delete|drop|create|alter|truncate|merge)\s`. -/
def kwsMutate : List Str :=
  ["insert", "update", "delete", "drop", "create", "alter", "truncate",
   "merge"].map String.data

/-- The keywords of the third prohibited pattern `\b(call|exec|execute)\s`. -/
def kwsExecLike : List Str := ["call", "exec", "execute"].map String.data

/-- Match `set\s+word2\s` (the `set session` / `set role` alternatives of
the second prohibited pattern). -/
def setPhraseWs (word2 : Str) (l : Str) : Bool :=
  match dropLit "set".data l with
  | none => false
  | some r =>
    match r with
    | [] => false
    | c :: cs => isJsSpace c && litThenWs word2 (cs.dropWhile isJsSpace)

/-- A scan for `\b(kw1|...|kwn)\s` anywhere in the text: one of the
keywords at a word boundary, followed by a whitespace character. -/
def containsKeywordThenWs (kws : List Str) (t : Str) : Bool :=
  scanBoundary (fun l => kws.any (fun k => litThenWs k l)) false t

/-- Prohibited pattern 1: `/\b(insert|update|delete|drop|create|alter|truncate|merge)\s/`. -/
def patMutate (t : Str) : Bool :=
  containsKeywordThenWs kwsMutate t

/-- Prohibited pattern 2: `/\b(grant|revoke|set\s+session|set\s+role)\s/`. -/
def patGrant (t : Str) : Bool :=
  scanBoundary
    (fun l => litThenWs "grant".data l || litThenWs "revoke".data l ||
      setPhraseWs "session".data l || setPhraseWs "role".data l) false t

/-- Prohibited pattern 3: `/\b(call|exec|execute)\s/`. -/
def patExecLike (t : Str) : Bool :=
  containsKeywordThenWs kwsExecLike t

/-- After the characters `/*` of a leading block comment: the regex tail
`.*?\*\/\s*select\s`.  The lazy `.*?` tries the earliest `*/` first and may
extend past it on failure, but never across a line terminator. -/
def scanCommentSelect : Str → Bool
  | [] => false
  | '*' :: '/' :: r =>
    litThenWs "select".data (r.dropWhile isJsSpace) || scanCommentSelect ('/' :: r)
  | c :: cs => !isLineTerm c && scanCommentSelect cs

/-- The start anchor `/^\s*(\/\*.*?\*\/)?\s*select\s/i` applied to the
already trimmed, lower-cased query text (so the leading `\s*` is empty). -/
def startsWithSelect (t : Str) : Bool :=
  litThenWs "select".data t ||
  (match t with
   | '/' :: '*' :: r => scanCommentSelect r
   | _ => false)

/-- `validateSelectOnlyQuery`: the query must start with SELECT (after an
optional single block comment) and contain none of the prohibited
statement patterns.  All tests run on the trimmed, lower-cased text. -/
def validateSelectOnlyQuery (sqlQuery : Str) : Bool :=
  let t := (jsTrim sqlQuery).map jsToLower
  startsWithSelect t && !(patMutate t || patGrant t || patExecLike t)

/-! ### `containsNestedModifications` (src/unnamed/part_000, lines 1052-1068) -/

/-- Nested pattern 1 at one position:
`\(\s*(insert|update|delete|drop|create|alter|truncate|merge)\s`. -/
def parenKwAt (l : Str) : Bool :=
  match l with
  | '(' :: r => kwsMutate.any (fun k => litThenWs k (r.dropWhile isJsSpace))
  | _ => false

/-- Greedy `\s+`: one whitespace character, then all following ones. -/
def stepWs : Str → Option Str
  | [] => none
  | c :: cs => if isJsSpace c then some (cs.dropWhile isJsSpace) else none

/-- Greedy `\w+`: one word character, then all following ones. -/
def stepWord : Str → Option Str
  | [] => none
  | c :: cs => if isWordChar c then some (cs.dropWhile isWordChar) else none

/-- The CTE opener `with\s+\w+\s+as\s*` of nested pattern 2: on success,
return the rest of the input, which must then match `\(\s*kw\s`. -/
def withOpener (l : Str) : Option Str :=
  (dropLit "with".data l).bind fun r1 =>
    (stepWs r1).bind fun r2 =>
      (stepWord r2).bind fun r3 =>
        (stepWs r3).bind fun r4 =>
          (dropLit "as".data r4).bind fun r5 =>
            some (r5.dropWhile isJsSpace)

/-- Nested pattern 2 at one position:
`with\s+\w+\s+as\s*\(\s*(insert|...|merge)\s`.  The part from the opening
parenthesis on is exactly `parenKwAt`. -/
def withKwAt (l : Str) : Bool :=
  match withOpener l with
  | some t => parenKwAt t
  | none => false

/-- `containsNestedModifications`: look for modification statements opened
inside a subquery or a CTE, anywhere in the lower-cased (untrimmed) text. -/
def containsNestedModifications (sqlQuery : Str) : Bool :=
  let lq := sqlQuery.map jsToLower
  anyTail parenKwAt lq || anyTail withKwAt lq

/-! ### `SecurityValidator` (src/src/logging/logging-manager.ts, lines 631-889) -/

/-- Validation outcome: a validity flag and an ordered error list. -/
structure ValidationResult where
  isValid : Bool
  errors : List Str
deriving DecidableEq

/-- ASCII decimal digits, JavaScript `\d` / `[0-9]`. -/
def isDigit (c : Char) : Bool := '0' ≤ c && c ≤ '9'

/-- Lower-case hexadecimal digits `[0-9a-f]` (inputs are lower-cased). -/
def isHexDigit (c : Char) : Bool := isDigit c || ('a' ≤ c && c ≤ 'f')

/-- Dangerous pattern 1 keywords: `\b(drop|delete|update|insert|alter|create|truncate)\b`. -/
def kwsDanger1 : List Str :=
  ["drop", "delete", "update", "insert", "alter", "create",
   "truncate"].map String.data

/-- Dangerous pattern 4 at one position: `(xp_|sp_)\w+` (after a `\b`). -/
def xpSpAt (l : Str) : Bool :=
  (match dropLit "xp_".data l with
   | some (c :: _) => isWordChar c
   | _ => false) ||
  (match dropLit "sp_".data l with
   | some (c :: _) => isWordChar c
   | _ => false)

/-- Dangerous pattern 5 at one position: `union\s+select` followed by `\b`. -/
def unionSelectAt (l : Str) : Bool :=
  match dropLit "union".data l with
  | some (c :: cs) =>
    isJsSpace c && litThenNonWord "select".data (cs.dropWhile isJsSpace)
  | _ => false

/-- A semicolon followed by `\s*` and the literal `pat` (dangerous patterns
`;\s*--` and `;\s*\/\*`). -/
def semiThenLit (pat : Str) (l : Str) : Bool :=
  match l with
  | ';' :: r => (dropLit pat (r.dropWhile isJsSpace)).isSome
  | _ => false

/-- `(or|and)\s+` followed by a continuation (shared by injection
patterns 1 and 6; the `\b` in front is supplied by `scanBoundary`). -/
def orAndWs (next : Str → Bool) (l : Str) : Bool :=
  (match dropLit "or".data l with
   | some (c :: cs) => isJsSpace c && next (cs.dropWhile isJsSpace)
   | _ => false) ||
  (match dropLit "and".data l with
   | some (c :: cs) => isJsSpace c && next (cs.dropWhile isJsSpace)
   | _ => false)

/-- Injection pattern 1 continuation: `['][^']*[']\s*=\s*['][^']*[']?`
(the closing `[^']*[']?` always matches once the third quote is seen;
note that `[^']`, unlike `.`, does match line terminators). -/
def quoteEqQuoteAt (l : Str) : Bool :=
  match l with
  | '\'' :: r =>
    (match r.dropWhile (fun c => !(c = '\'')) with
     | '\'' :: r2 =>
       (match r2.dropWhile isJsSpace with
        | '=' :: r3 =>
          (match r3.dropWhile isJsSpace with
           | '\'' :: _ => true
           | _ => false)
        | _ => false)
     | _ => false)
  | _ => false

/-- Injection pattern 2 tail: `\s*=` (everything after the `=` in
`[']?\w*[']?\s*=\s*[']?\w*[']?` is optional and always matches). -/
def eqAfterWs (l : Str) : Bool :=
  match l.dropWhile isJsSpace with
  | '=' :: _ => true
  | _ => false

/-- Injection pattern 2 continuation after `or\s+`: `[']?\w*[']?\s*=`,
covering every combination of the optional quotes. -/
def optQuoteWordEqAt (l : Str) : Bool :=
  (match l with
   | '\'' :: r => optWordEqAt r
   | _ => false) || optWordEqAt l
where
  optWordEqAt (l : Str) : Bool :=
    let r := l.dropWhile isWordChar
    (match r with
     | '\'' :: r2 => eqAfterWs r2
     | _ => false) || eqAfterWs r

/-- Injection pattern 3 at one position: `union\s+(all\s+)?select`. -/
def unionAllSelectAt (l : Str) : Bool :=
  match dropLit "union".data l with
  | some (c :: cs) =>
    isJsSpace c &&
    (let r := cs.dropWhile isJsSpace
     (match dropLit "all".data r with
      | some (d :: ds) =>
        isJsSpace d && (dropLit "select".data (ds.dropWhile isJsSpace)).isSome
      | _ => false) ||
     (dropLit "select".data r).isSome)
  | _ => false

/-- Injection pattern 5 tail: after `/*`, look for `*/` without crossing a
line terminator (`.` does not match line terminators). -/
def blockCloseScan : Str → Bool
  | [] => false
  | '*' :: '/' :: _ => true
  | c :: cs => !isLineTerm c && blockCloseScan cs

/-- Injection pattern 5: `/\/\*.*?\*\//` tested anywhere in the text.  This
only fires when some block comment opens and closes on one line. -/
def blockCommentInline (n : Str) : Bool :=
  anyTail (fun l =>
    match l with
    | '/' :: '*' :: r => blockCloseScan r
    | _ => false) n

/-- Injection pattern 6 continuation after `(or|and)\s+`: `\d+\s*=\s*\d+`. -/
def numEqNumAt (l : Str) : Bool :=
  match l with
  | c :: cs =>
    isDigit c &&
    (match (cs.dropWhile isDigit).dropWhile isJsSpace with
     | '=' :: r =>
       (match r.dropWhile isJsSpace with
        | d :: _ => isDigit d
        | [] => false)
     | _ => false)
  | [] => false

/-- Injection pattern 7 at one position: `'\s*(or|and)\s*'`. -/
def quoteOrAndQuoteAt (l : Str) : Bool :=
  match l with
  | '\'' :: r =>
    (let r1 := r.dropWhile isJsSpace
     (match dropLit "or".data r1 with
      | some r2 =>
        (match r2.dropWhile isJsSpace with
         | '\'' :: _ => true
         | _ => false)
      | none => false) ||
     (match dropLit "and".data r1 with
      | some r2 =>
        (match r2.dropWhile isJsSpace with
         | '\'' :: _ => true
         | _ => false)
      | none => false))
  | _ => false

/-- Injection pattern 9 keywords: `;\s*(select|insert|update|delete|drop|create|alter)`. -/
def kwsInj9 : List Str :=
  ["select", "insert", "update", "delete", "drop", "create",
   "alter"].map String.data

/-- Does the text contain the literal `pat` as a substring
(`String.prototype.includes`)? -/
def containsLit (pat : Str) (l : Str) : Bool :=
  anyTail (fun t => (dropLit pat t).isSome) l

/-- The seven dangerous-operation regexes of `validateSqlQuery`, in source
order, each paired with its `pattern.source` reported in the error text. -/
def dangerousHits (n : Str) : List Str :=
  [(scanBoundary (fun l => kwsDanger1.any (fun k => litThenNonWord k l)) false n,
    "\\b(drop|delete|update|insert|alter|create|truncate)\\b"),
   (scanBoundary (fun l => litThenNonWord "grant".data l ||
      litThenNonWord "revoke".data l) false n,
    "\\b(grant|revoke)\\b"),
   (scanBoundary (fun l => litThenNonWord "exec".data l ||
      litThenNonWord "execute".data l) false n,
    "\\b(exec|execute)\\b"),
   (scanBoundary xpSpAt false n, "\\b(xp_|sp_)\\w+"),
   (scanBoundary unionSelectAt false n, "\\b(union\\s+select)\\b"),
   (anyTail (semiThenLit "--".data) n, ";\\s*--"),
   (anyTail (semiThenLit "/*".data) n, ";\\s*\\/\\*")].filterMap
    (fun p => if p.1 then
        some ("Potentially dangerous SQL pattern detected: ".data ++ p.2.data)
      else none)

/-- Do any of the ten SQL-injection regexes of `validateSqlQuery` match?
(The loop breaks after the first hit, adding a single error.) -/
def injectionAny (n : Str) : Bool :=
  scanBoundary (orAndWs quoteEqQuoteAt) false n ||
  scanBoundary (fun l =>
    match dropLit "or".data l with
    | some (c :: cs) => isJsSpace c && optQuoteWordEqAt (cs.dropWhile isJsSpace)
    | _ => false) false n ||
  anyTail unionAllSelectAt n ||
  anyTail (fun l =>
    match l with
    | '-' :: '-' :: r => r.dropWhile isJsSpace = []
    | _ => false) n ||
  blockCommentInline n ||
  scanBoundary (orAndWs numEqNumAt) false n ||
  anyTail quoteOrAndQuoteAt n ||
  anyTail (fun l =>
    match l with
    | '0' :: 'x' :: c :: _ => isHexDigit c
    | _ => false) n ||
  anyTail (fun l =>
    match l with
    | ';' :: r => kwsInj9.any (fun k => (dropLit k (r.dropWhile isJsSpace)).isSome)
    | _ => false) n

/-- `SecurityValidator.validateSqlQuery`: dangerous-operation checks,
injection checks (one error at most), `@@` and `information_schema`
checks, in source order; `isValid` is `errors.length === 0`. -/
def validateSqlQuery (sql : Str) : ValidationResult :=
  if sql = [] then
    ⟨false, ["SQL query must be a non-empty string".data]⟩
  else
    let n := jsTrim (sql.map jsToLower)
    if n = [] then
      ⟨false, ["SQL query cannot be empty".data]⟩
    else
      let errors :=
        dangerousHits n ++
        (if injectionAny n then ["Potential SQL injection pattern detected".data]
         else []) ++
        (if containsLit "@@".data n then ["Global variables access detected".data]
         else []) ++
        (if containsLit "information_schema".data n &&
            !containsLit "select".data n then
          ["Suspicious information_schema access detected".data]
         else [])
      ⟨errors.isEmpty, errors⟩

/-- The identifier kinds accepted by `validateIdentifier`. -/
inductive IdKind where
  | schema
  | table
  | column
deriving DecidableEq

/-- The textual name of an identifier kind, used in error messages. -/
def idKindName : IdKind → Str
  | .schema => "schema".data
  | .table => "table".data
  | .column => "column".data

/-- The reserved keywords rejected by `validateIdentifier`. -/
def reservedKeywords : List Str :=
  ["select", "from", "where", "insert", "update", "delete", "drop", "create",
   "alter", "table", "database", "schema", "index", "view", "procedure",
   "function", "trigger", "user", "role", "grant", "revoke"].map String.data

/-- `SecurityValidator.validateIdentifier`: length, reserved-keyword and
character-class checks; `isValid` is `errors.length === 0`. -/
def validateIdentifier (identifier : Str) (ty : IdKind) : ValidationResult :=
  if identifier = [] then
    ⟨false, [idKindName ty ++ " identifier must be a non-empty string".data]⟩
  else
    let lenErrs :=
      if 63 < identifier.length then
        [idKindName ty ++ " identifier exceeds maximum length of 63 characters".data]
      else []
    let resErrs :=
      if reservedKeywords.contains (identifier.map jsToLower) then
        [idKindName ty ++ " identifier cannot be a reserved keyword: ".data ++
          identifier]
      else []
    let patOk :=
      match ty with
      | .schema => !identifier.isEmpty && identifier.all isWordChar
      | .table => !identifier.isEmpty &&
          identifier.all (fun c => isWordChar c || c = '.')
      | .column => !identifier.isEmpty && identifier.all isWordChar
    let patErrs :=
      if !patOk then
        [idKindName ty ++ " identifier contains invalid characters: ".data ++
          identifier]
      else []
    let errors := lenErrs ++ resErrs ++ patErrs
    ⟨errors.isEmpty, errors⟩

/-! ### Table-reference extraction (src/unnamed/part_000, lines 1077-1107)

The three `matchAll` regexes of `isExternalTableQuery`, run against the
original (un-lowercased) SQL text with the `/gi` flags.  Captured schema
and table names keep their original case; an absent schema capture is
represented by `[]` and later defaulted to `public`. -/

/-- Greedy `[a-zA-Z_]\w*`: an identifier and the rest of the input. -/
def matchIdent : Str → Option (Str × Str)
  | c :: cs =>
    if isAlphaUs c then some (c :: cs.takeWhile isWordChar, cs.dropWhile isWordChar)
    else none
  | [] => none

/-- The optional schema group `(?:"?([a-zA-Z_]\w*)"?\.)?`: an optionally
quoted identifier followed by a dot; returns the capture and the rest. -/
def matchSchemaDot (l : Str) : Option (Str × Str) :=
  let l1 := match l with
    | '"' :: r => r
    | _ => l
  match matchIdent l1 with
  | none => none
  | some (id, r) =>
    match r with
    | '"' :: r3 =>
      (match r3 with
       | '.' :: r2 => some (id, r2)
       | _ => none)
    | '.' :: r2 => some (id, r2)
    | _ => none

/-- The table part `"?([a-zA-Z_]\w*)"?`: an optionally quoted identifier;
the trailing optional quote is consumed greedily (it moves the match end). -/
def matchTablePart (l : Str) : Option (Str × Str) :=
  let l1 := match l with
    | '"' :: r => r
    | _ => l
  match matchIdent l1 with
  | none => none
  | some (id, r) =>
    some (id,
      match r with
      | '"' :: r2 => r2
      | _ => r)

/-- The full reference tail `(?:"?(schema)"?\.)?"?(table)"?`: if the schema
group matches but the table part after it fails, the regex backtracks and
retries with the group skipped. -/
def matchRefTail (l : Str) : Option ((Str × Str) × Str) :=
  match matchSchemaDot l with
  | some (sch, r) =>
    (match matchTablePart r with
     | some (tbl, r2) => some ((sch, tbl), r2)
     | none =>
       match matchTablePart l with
       | some (tbl, r2) => some (([], tbl), r2)
       | none => none)
  | none =>
    match matchTablePart l with
    | some (tbl, r2) => some (([], tbl), r2)
    | none => none

/-- `FROM` or `JOIN` (case-insensitive), the shared opener of the three
patterns; returns the rest. -/
def matchFromJoin (l : Str) : Option Str :=
  match dropLitCI "from".data l with
  | some r => some r
  | none => dropLitCI "join".data l

/-- Extraction pattern 1 at one position:
`(?:FROM|JOIN)\s+(?:"?(schema)"?\.)?"?(table)"?`. -/
def matchP1At (l : Str) : Option ((Str × Str) × Str) :=
  match matchFromJoin l with
  | none => none
  | some r =>
    match r with
    | c :: cs =>
      if isJsSpace c then matchRefTail (cs.dropWhile isJsSpace) else none
    | [] => none

/-- `FROM\s+` then the reference tail, the target of the lazy `.*?FROM\s+`
inside patterns 2 and 3. -/
def matchInnerFromRef (l : Str) : Option ((Str × Str) × Str) :=
  match dropLitCI "from".data l with
  | none => none
  | some (c :: cs) =>
    if isJsSpace c then matchRefTail (cs.dropWhile isJsSpace) else none
  | some [] => none

/-- The lazy `.*?FROM\s+(?:"?(schema)"?\.)?"?(table)"?`: try the inner
match at the current position first, then consume one character (which the
dot cannot do across a line terminator) and retry. -/
def lazyFromRef (fuel : Nat) (l : Str) : Option ((Str × Str) × Str) :=
  match fuel with
  | 0 => none
  | fuel + 1 =>
    match matchInnerFromRef l with
    | some r => some r
    | none =>
      match l with
      | [] => none
      | c :: cs => if isLineTerm c then none else lazyFromRef fuel cs

/-- Extraction pattern 2 at one position:
`(?:FROM|JOIN)\s*\(\s*SELECT.*?FROM\s+(?:"?(schema)"?\.)?"?(table)"?`. -/
def matchP2At (l : Str) : Option ((Str × Str) × Str) :=
  match matchFromJoin l with
  | none => none
  | some r =>
    match r.dropWhile isJsSpace with
    | '(' :: r2 =>
      (match dropLitCI "select".data (r2.dropWhile isJsSpace) with
       | none => none
       | some r4 => lazyFromRef (r4.length + 1) r4)
    | _ => none

/-- Extraction pattern 3 at one position:
`WITH\s+\w+\s+AS\s*\(\s*SELECT.*?FROM\s+(?:"?(schema)"?\.)?"?(table)"?`. -/
def matchP3At (l : Str) : Option ((Str × Str) × Str) :=
  match dropLitCI "with".data l with
  | some (c :: cs) =>
    if isJsSpace c then
      match cs.dropWhile isJsSpace with
      | d :: ds =>
        if isWordChar d then
          match ds.dropWhile isWordChar with
          | e :: es =>
            if isJsSpace e then
              match dropLitCI "as".data (es.dropWhile isJsSpace) with
              | some r4 =>
                (match r4.dropWhile isJsSpace with
                 | '(' :: r6 =>
                   (match dropLitCI "select".data (r6.dropWhile isJsSpace) with
                    | some r8 => lazyFromRef (r8.length + 1) r8
                    | none => none)
                 | _ => none)
              | none => none
            else none
          | [] => none
        else none
      | [] => none
    else none
  | _ => none

/-- `matchAll` with the `/g` flag: collect the matches left to right, each
search resuming at the end of the previous match.  The fuel (the input
length suffices, every step consuming at least one character) makes the
recursion structural. -/
def scanMatches (m : Str → Option ((Str × Str) × Str)) :
    Nat → Str → List (Str × Str)
  | 0, _ => []
  | _, [] => []
  | fuel + 1, c :: cs =>
    match m (c :: cs) with
    | some (ref, rest) => ref :: scanMatches m fuel rest
    | none => scanMatches m fuel cs

/-- The table names discarded by the extraction loop:
`/^(select|from|where|group|order|having|limit)$/i`. -/
def discardedNames : List Str :=
  ["select", "from", "where", "group", "order", "having",
   "limit"].map String.data

/-- One extracted reference after normalisation: an absent schema becomes
`public`; the table name keeps its case. -/
def normRef (r : Str × Str) : Str × Str :=
  (if r.1 = [] then "public".data else r.1, r.2)

/-- Insert a reference unless its `schema.table` key is already present
(the JavaScript `Set`, preserving insertion order). -/
def dedupAdd (acc : List (Str × Str)) (r : Str × Str) : List (Str × Str) :=
  if acc.contains r then acc else acc ++ [r]

/-- The unique table references of a statement: run the three extraction
patterns in order, default missing schemas to `public`, drop SQL-keyword
table names, and deduplicate preserving first-insertion order. -/
def extractTableRefs (sql : Str) : List (Str × Str) :=
  ((scanMatches matchP1At sql.length sql ++
    scanMatches matchP2At sql.length sql ++
    scanMatches matchP3At sql.length sql).filterMap
    (fun r =>
      if discardedNames.contains (r.2.map jsToLower) then none
      else some (normRef r))).foldl dedupAdd []

/-! ### The connection-provider model and the transaction router
(src/unnamed/part_000, lines 700-1013; src/unnamed/part_001, lines 189-254) -/

/-- Rows are opaque to the router (it only returns them and counts them for
logging); they are modelled as an abstract index. -/
abbrev DatabaseRow := Nat

/-- One call issued to the borrowed connection: the transaction commands,
the execution of the user's statement, and a federated-catalog lookup
(itself a `client.query` against `svv_external_tables`). -/
inductive Cmd where
  | beginRO
  | beginRW
  | execQ
  | commitTx
  | rollbackTx
  | lookup (schemaName tableName : Str)
deriving DecidableEq

/-- The deterministic behaviour of the borrowed connection for one
statement's lifecycle: what each `client.query` call returns or throws. -/
structure ClientEnv where
  beginRO : Except Str Unit
  beginRW : Except Str Unit
  commitTx : Except Str Unit
  rollbackTx : Except Str Unit
  runQuery : Except Str (List DatabaseRow)
  catalog : Str × Str → Except Str Nat

/-- The observability sink (`globalLoggingManager`): absent (`none`),
present and healthy (`some false`), or present with failing awaited calls
(`some true`). -/
abbrev Sink := Option Bool

/-- One awaited call on the sink, skipped when the manager is absent. -/
def sinkCall : Sink → Except Str Unit
  | some true => .error "sink failure".data
  | _ => .ok ()

/-- `isExternalTableQuery`'s lookup loop over the unique references: each
catalog query may throw; a positive count returns `true` immediately. -/
def catalogLoop (env : ClientEnv) : List (Str × Str) → List Cmd × Except Str Bool
  | [] => ([], .ok false)
  | r :: rs =>
    match env.catalog r with
    | .error e => ([Cmd.lookup r.1 r.2], .error e)
    | .ok n =>
      if 0 < n then ([Cmd.lookup r.1 r.2], .ok true)
      else
        let (t, b) := catalogLoop env rs
        (Cmd.lookup r.1 r.2 :: t, b)

/-- `isExternalTableQuery`: extract the references, query the catalog for
each; any thrown error is caught and classified as not federated
(the conservative read-only fail-safe). -/
def isExternalTableQuery (env : ClientEnv) (sql : Str) : List Cmd × Bool :=
  match catalogLoop env (extractTableRefs sql) with
  | (t, .ok b) => (t, b)
  | (t, .error _) => (t, false)

/-- `executeSecureSpectrumQuery`: re-validate (SELECT-only and no nested
modifications) before `BEGIN`; then execute and `COMMIT`, rolling back on
failure inside the inner `try`; an error in the rollback replaces the
original one.  The outer `catch` only logs and rethrows. -/
def executeSecureSpectrumQuery (env : ClientEnv) (sql : Str) :
    List Cmd × Except Str (List DatabaseRow) :=
  if validateSelectOnlyQuery sql = false then
    ([], .error "Only SELECT queries are allowed for security".data)
  else if containsNestedModifications sql then
    ([], .error "Query contains nested modification statements which are not allowed".data)
  else
    match env.beginRW with
    | .error e => ([Cmd.beginRW], .error e)
    | .ok _ =>
      match env.runQuery with
      | .error e =>
        (match env.rollbackTx with
         | .ok _ => ([Cmd.beginRW, Cmd.execQ, Cmd.rollbackTx], .error e)
         | .error e2 => ([Cmd.beginRW, Cmd.execQ, Cmd.rollbackTx], .error e2))
      | .ok rows =>
        match env.commitTx with
        | .ok _ => ([Cmd.beginRW, Cmd.execQ, Cmd.commitTx], .ok rows)
        | .error e =>
          match env.rollbackTx with
          | .ok _ =>
            ([Cmd.beginRW, Cmd.execQ, Cmd.commitTx, Cmd.rollbackTx], .error e)
          | .error e2 =>
            ([Cmd.beginRW, Cmd.execQ, Cmd.commitTx, Cmd.rollbackTx], .error e2)

/-- The `catch` block of `executeTraditionalSpectrumQuery`: `ROLLBACK`
first (its own error replaces the original and skips the rest), then the
awaited sink error-log (whose failure also replaces), then rethrow. -/
def tradCatch (env : ClientEnv) (sink : Sink) (t : List Cmd) (e : Str) :
    List Cmd × Except Str (List DatabaseRow) :=
  match env.rollbackTx with
  | .error e2 => (t ++ [Cmd.rollbackTx], .error e2)
  | .ok _ =>
    match sinkCall sink with
    | .error e3 => (t ++ [Cmd.rollbackTx], .error e3)
    | .ok _ => (t ++ [Cmd.rollbackTx], .error e)

/-- `executeTraditionalSpectrumQuery`, the fallback path: an awaited sink
warning, then `BEGIN`, execute, `COMMIT` and an awaited sink info — all
inside one `try` whose `catch` is `tradCatch`.  The statement is *not*
re-validated here. -/
def executeTraditionalSpectrumQuery (env : ClientEnv) (sink : Sink) :
    List Cmd × Except Str (List DatabaseRow) :=
  match sinkCall sink with
  | .error e => tradCatch env sink [] e
  | .ok _ =>
    match env.beginRW with
    | .error e => tradCatch env sink [Cmd.beginRW] e
    | .ok _ =>
      match env.runQuery with
      | .error e => tradCatch env sink [Cmd.beginRW, Cmd.execQ] e
      | .ok rows =>
        match env.commitTx with
        | .error e => tradCatch env sink [Cmd.beginRW, Cmd.execQ, Cmd.commitTx] e
        | .ok _ =>
          match sinkCall sink with
          | .error e => tradCatch env sink [Cmd.beginRW, Cmd.execQ, Cmd.commitTx] e
          | .ok _ => ([Cmd.beginRW, Cmd.execQ, Cmd.commitTx], .ok rows)

/-- The plain read-only block used when Spectrum support is disabled
(lines 744-752): `BEGIN TRANSACTION READ ONLY`, execute, `COMMIT`; on
failure `ROLLBACK` (whose own error replaces) and rethrow.  No sink call
sits inside this `try`. -/
def readOnlyBlockPlain (env : ClientEnv) :
    List Cmd × Except Str (List DatabaseRow) :=
  match env.beginRO with
  | .error e => ([Cmd.beginRO], .error e)
  | .ok _ =>
    match env.runQuery with
    | .error e =>
      (match env.rollbackTx with
       | .ok _ => ([Cmd.beginRO, Cmd.execQ, Cmd.rollbackTx], .error e)
       | .error e2 => ([Cmd.beginRO, Cmd.execQ, Cmd.rollbackTx], .error e2))
    | .ok rows =>
      match env.commitTx with
      | .ok _ => ([Cmd.beginRO, Cmd.execQ, Cmd.commitTx], .ok rows)
      | .error e =>
        match env.rollbackTx with
        | .ok _ =>
          ([Cmd.beginRO, Cmd.execQ, Cmd.commitTx, Cmd.rollbackTx], .error e)
        | .error e2 =>
          ([Cmd.beginRO, Cmd.execQ, Cmd.commitTx, Cmd.rollbackTx], .error e2)

/-- The read-only block of the Spectrum-enabled, non-federated branch
(lines 801-830).  The awaited sink info-log sits *inside* the `try`, after
`COMMIT`: its failure reaches the `catch` and triggers a `ROLLBACK` after
the successful `COMMIT`. -/
def readOnlyBlockLogged (env : ClientEnv) (sink : Sink) :
    List Cmd × Except Str (List DatabaseRow) :=
  match env.beginRO with
  | .error e => ([Cmd.beginRO], .error e)
  | .ok _ =>
    match env.runQuery with
    | .error e =>
      (match env.rollbackTx with
       | .ok _ => ([Cmd.beginRO, Cmd.execQ, Cmd.rollbackTx], .error e)
       | .error e2 => ([Cmd.beginRO, Cmd.execQ, Cmd.rollbackTx], .error e2))
    | .ok rows =>
      match env.commitTx with
      | .error e =>
        (match env.rollbackTx with
         | .ok _ =>
           ([Cmd.beginRO, Cmd.execQ, Cmd.commitTx, Cmd.rollbackTx], .error e)
         | .error e2 =>
           ([Cmd.beginRO, Cmd.execQ, Cmd.commitTx, Cmd.rollbackTx], .error e2))
      | .ok _ =>
        match sinkCall sink with
        | .ok _ => ([Cmd.beginRO, Cmd.execQ, Cmd.commitTx], .ok rows)
        | .error se =>
          match env.rollbackTx with
          | .ok _ =>
            ([Cmd.beginRO, Cmd.execQ, Cmd.commitTx, Cmd.rollbackTx], .error se)
          | .error e2 =>
            ([Cmd.beginRO, Cmd.execQ, Cmd.commitTx, Cmd.rollbackTx], .error e2)

/-- The prefix of the message the router's outer `catch` wraps around the
underlying error. -/
def wrapFail (e : Str) : Str := "Failed to execute query: ".data ++ e

/-- The router's outer `catch` (lines 832-861): an awaited sink error-log
whose failure propagates unwrapped; otherwise the original error is
rethrown wrapped in `Failed to execute query: ...`. -/
def outerCatch (sink : Sink) (t : List Cmd) (e : Str) :
    List Cmd × Except Str (List DatabaseRow) :=
  match sinkCall sink with
  | .error se => (t, .error se)
  | .ok _ => (t, .error (wrapFail e))

/-- `executeSpectrumQuery`, the transaction router: validate, then route to
the read-only path (Spectrum disabled, or no federated reference found) or
to the secure elevated path with the traditional fallback; every error of
the routed path lands in the outer `catch`. -/
def executeSpectrumQuery (env : ClientEnv) (sink : Sink) (enabled : Bool)
    (sql : Str) : List Cmd × Except Str (List DatabaseRow) :=
  if validateSelectOnlyQuery sql = false then
    outerCatch sink [] "Only SELECT queries are allowed for security".data
  else if enabled = false then
    match readOnlyBlockPlain env with
    | (t, .ok rows) => (t, .ok rows)
    | (t, .error e) => outerCatch sink t e
  else
    let ext := isExternalTableQuery env sql
    if ext.2 then
      match executeSecureSpectrumQuery env sql with
      | (t, .ok rows) => (ext.1 ++ t, .ok rows)
      | (t, .error _) =>
        match executeTraditionalSpectrumQuery env sink with
        | (t2, .ok rows) => (ext.1 ++ t ++ t2, .ok rows)
        | (t2, .error e) => outerCatch sink (ext.1 ++ t ++ t2) e
    else
      match readOnlyBlockLogged env sink with
      | (t, .ok rows) => (ext.1 ++ t, .ok rows)
      | (t, .error e) => outerCatch sink (ext.1 ++ t) e

/-- The response returned to the tool caller. -/
structure ToolResponse where
  isError : Bool
  text : Str
  rows : List DatabaseRow
deriving DecidableEq

/-- Join an error list with newlines (`errors.join("\n")`). -/
def joinErrors : List Str → Str
  | [] => []
  | [e] => e
  | e :: es => e ++ '\n' :: joinErrors es

/-- `handleQueryTool`: validate with `SecurityValidator.validateSqlQuery`
and return a structured security rejection without touching the database;
otherwise run the router and wrap its rows or its error message.  (The JSON
formatting of the success payload is abstracted to its fixed message.) -/
def handleQueryTool (env : ClientEnv) (sink : Sink) (enabled : Bool)
    (sql : Str) : List Cmd × ToolResponse :=
  let v := validateSqlQuery sql
  if v.isValid = false then
    ([], ⟨true, "Security validation failed:\n".data ++ joinErrors v.errors, []⟩)
  else
    match executeSpectrumQuery env sink enabled sql with
    | (t, .ok rows) =>
      (t, ⟨false, "Query executed successfully with Spectrum support".data, rows⟩)
    | (t, .error e) => (t, ⟨true, "Error executing query: ".data ++ e, []⟩)

deriving instance DecidableEq for Except

/-! ### Concrete environments and specification-side predicates used by the
claims -/

/-- A connection on which every call succeeds, the statement returns one
row, and no table is federated. -/
def envAllOk : ClientEnv :=
  ⟨.ok (), .ok (), .ok (), .ok (), .ok [7], fun _ => .ok 0⟩

/-- A catalog in which exactly `ext_schema.ext_table` is federated. -/
def fedCatalog : Str × Str → Except Str Nat := fun r =>
  .ok (if r = ("ext_schema".data, "ext_table".data) then 1 else 0)

/-- An otherwise healthy connection whose catalog marks
`ext_schema.ext_table` as federated. -/
def envFedOk : ClientEnv := { envAllOk with catalog := fedCatalog }

/-- A connection on which executing the statement fails and the subsequent
`ROLLBACK` also fails. -/
def envExecRollbackFail : ClientEnv :=
  { envAllOk with
    runQuery := Except.error "syntax error near x".data
    rollbackTx := Except.error "connection lost".data }

/-- A connection whose federated-catalog lookups always throw. -/
def envCatalogDown : ClientEnv :=
  { envAllOk with catalog := fun _ => Except.error "timeout".data }

/-- A validated SELECT whose nested-modification check fails only on the
untrimmed text: the text ends in `(drop ` whose trailing whitespace the
outer validator's `trim` removes. -/
def sqlNestedTail : Str := "select * from ext_schema.ext_table (drop ".data

/-- A SELECT containing a block comment that spans two lines. -/
def sqlMultilineComment : Str :=
  "select a /*".data ++ '\n' :: "b*/ from t".data

/-- Specification-side reading of claim C5: the keyword appears as a whole
word (word boundary on both sides) anywhere in the text. -/
def containsWholeWord (kw : Str) (s : Str) : Bool :=
  scanBoundary (litThenNonWord kw) false s

/-- The thirteen keywords enumerated by claim C5, grouped as in the three
prohibited patterns. -/
def kwsThirteen : List Str :=
  kwsMutate ++ ["grant", "revoke"].map String.data ++ kwsExecLike

/-- Specification-side literal reading of claim C7: a mutation keyword as a
whole word directly after an opening parenthesis, with nothing in
between. -/
def kwImmediatelyAfterParen (s : Str) : Bool :=
  anyTail (fun l =>
    match l with
    | '(' :: r => kwsMutate.any (fun k => litThenNonWord k r)
    | _ => false) (s.map jsToLower)

/-- Specification-side reading of claim C10: the text contains `/*`
followed anywhere later by `*/` (a block comment, possibly spanning
lines). -/
def containsBlockCommentAnywhere (s : Str) : Bool :=
  anyTail (fun l =>
    match l with
    | '/' :: '*' :: r =>
      anyTail (fun t =>
        match t with
        | '*' :: '/' :: _ => true
        | _ => false) r
    | _ => false) s

/-- Does the catalog report this reference as federated (a positive count)?
Errors count as no hit. -/
def catHit (env : ClientEnv) (r : Str × Str) : Bool :=
  match env.catalog r with
  | .ok n => decide (0 < n)
  | .error _ => false

/-! ### Helper lemmas -/

theorem anyTail_eq_true_iff {p : Str → Bool} {l : Str} :
    anyTail p l = true ↔ ∃ t, t <:+ l ∧ p t = true := by
  induction l with
  | nil => simp [anyTail, List.suffix_nil]
  | cons c cs ih =>
    simp only [anyTail, Bool.or_eq_true, ih]
    constructor
    · rintro (h | ⟨t, ht, hp⟩)
      · exact ⟨c :: cs, List.suffix_refl _, h⟩
      · exact ⟨t, ht.trans (List.suffix_cons c cs), hp⟩
    · rintro ⟨t, ht, hp⟩
      rcases (List.suffix_cons_iff).mp ht with h | h
      · subst h; exact Or.inl hp
      · exact Or.inr ⟨t, h, hp⟩

theorem dropLit_suffix : ∀ {pat l r : Str}, dropLit pat l = some r → r <:+ l := by
  intro pat
  induction pat with
  | nil =>
    intro l r h
    simp [dropLit] at h
    subst h
    exact List.suffix_refl _
  | cons p ps ih =>
    intro l r h
    cases l with
    | nil => simp [dropLit] at h
    | cons c cs =>
      unfold dropLit at h
      split at h
      · exact (ih h).trans (List.suffix_cons c cs)
      · simp at h

theorem dropWhile_suffix_self (p : Char → Bool) (l : Str) :
    l.dropWhile p <:+ l := by
  induction l with
  | nil => simp
  | cons c cs ih =>
    by_cases h : p c
    · simpa [List.dropWhile, h] using ih.trans (List.suffix_cons c cs)
    · simp [List.dropWhile, h]

theorem stepWs_suffix {l r : Str} (h : stepWs l = some r) : r <:+ l := by
  cases l with
  | nil => simp [stepWs] at h
  | cons c cs =>
    by_cases hc : isJsSpace c
    · simp [stepWs, hc] at h
      subst h
      exact (dropWhile_suffix_self isJsSpace cs).trans (List.suffix_cons c cs)
    · simp [stepWs, hc] at h

theorem stepWord_suffix {l r : Str} (h : stepWord l = some r) : r <:+ l := by
  cases l with
  | nil => simp [stepWord] at h
  | cons c cs =>
    by_cases hc : isWordChar c
    · simp [stepWord, hc] at h
      subst h
      exact (dropWhile_suffix_self isWordChar cs).trans (List.suffix_cons c cs)
    · simp [stepWord, hc] at h

theorem withOpener_suffix : ∀ {l t : Str}, withOpener l = some t → t <:+ l := by
  intro l t h
  unfold withOpener at h
  simp only [Option.bind_eq_some, Option.some.injEq] at h
  obtain ⟨r1, h1, r2, h2, r3, h3, r4, h4, r5, h5, ht⟩ := h
  subst ht
  exact ((((dropWhile_suffix_self isJsSpace r5).trans
    (dropLit_suffix h5)).trans (stepWs_suffix h4)).trans
    ((stepWord_suffix h3).trans (stepWs_suffix h2))).trans (dropLit_suffix h1)

theorem withKwAt_paren {l : Str} (h : withKwAt l = true) :
    anyTail parenKwAt l = true := by
  unfold withKwAt at h
  cases hw : withOpener l with
  | none => rw [hw] at h; simp at h
  | some t =>
    rw [hw] at h
    exact anyTail_eq_true_iff.mpr ⟨t, withOpener_suffix hw, h⟩

theorem anyTail_withKwAt_paren {lq : Str} (h : anyTail withKwAt lq = true) :
    anyTail parenKwAt lq = true := by
  obtain ⟨t, hs, hp⟩ := anyTail_eq_true_iff.mp h
  obtain ⟨u, hu, hq⟩ := anyTail_eq_true_iff.mp (withKwAt_paren hp)
  exact anyTail_eq_true_iff.mpr ⟨u, hu.trans hs, hq⟩

theorem scanBoundary_mono {f g : Str → Bool}
    (hfg : ∀ l, f l = true → g l = true) :
    ∀ b t, scanBoundary f b t = true → scanBoundary g b t = true := by
  intro b t
  induction t generalizing b with
  | nil => simp [scanBoundary]
  | cons c cs ih =>
    simp only [scanBoundary, Bool.or_eq_true, Bool.and_eq_true]
    rintro (⟨hb, hf⟩ | h)
    · exact Or.inl ⟨hb, hfg _ hf⟩
    · exact Or.inr (ih _ h)

theorem scanBoundary_or (f g : Str → Bool) :
    ∀ b t, scanBoundary (fun l => f l || g l) b t =
      (scanBoundary f b t || scanBoundary g b t) := by
  intro b t
  induction t generalizing b with
  | nil => simp [scanBoundary]
  | cons c cs ih =>
    simp only [scanBoundary, ih]
    cases b <;> cases hf : f (c :: cs) <;> cases hg : g (c :: cs) <;> simp

theorem catalogLoop_trace_lookups (env : ClientEnv) :
    ∀ rs, ∀ c ∈ (catalogLoop env rs).1, ∃ s tb, c = Cmd.lookup s tb := by
  intro rs
  induction rs with
  | nil => simp [catalogLoop]
  | cons r rs ih =>
    intro c hc
    unfold catalogLoop at hc
    cases hcat : env.catalog r with
    | error e =>
      rw [hcat] at hc
      simp at hc
      exact ⟨r.1, r.2, hc⟩
    | ok n =>
      rw [hcat] at hc
      by_cases hn : 0 < n
      · simp [hn] at hc
        exact ⟨r.1, r.2, hc⟩
      · simp [hn] at hc
        cases hp : catalogLoop env rs with
        | mk t b =>
          rw [hp] at hc
          simp at hc
          rcases hc with hc | hc
          · exact ⟨r.1, r.2, hc⟩
          · exact ih c (by rw [hp]; exact hc)

theorem catalogLoop_total (env : ClientEnv)
    (hcat : ∀ r, ∃ n, env.catalog r = Except.ok n) :
    ∀ rs, (catalogLoop env rs).2 = Except.ok (rs.any (catHit env)) := by
  intro rs
  induction rs with
  | nil => simp [catalogLoop]
  | cons r rs ih =>
    obtain ⟨n, hn⟩ := hcat r
    unfold catalogLoop
    rw [hn]
    by_cases h0 : 0 < n
    · simp [h0, catHit, hn]
    · cases hp : catalogLoop env rs with
      | mk t b =>
        rw [hp] at ih
        simp [h0, catHit, hn, ih]

theorem nodup_foldl_dedupAdd :
    ∀ (ms acc : List (Str × Str)), acc.Nodup → (ms.foldl dedupAdd acc).Nodup := by
  intro ms
  induction ms with
  | nil => intro acc h; simpa using h
  | cons m ms ih =>
    intro acc h
    simp only [List.foldl_cons]
    apply ih
    unfold dedupAdd
    split
    · exact h
    · rename_i hmem
      rw [List.nodup_append]
      refine ⟨h, List.nodup_singleton m, ?_⟩
      intro a ha hb
      simp only [List.mem_singleton] at hb
      subst hb
      exact hmem (by simpa [List.contains, List.elem_iff] using ha)

theorem extractTableRefs_nodup (sql : Str) : (extractTableRefs sql).Nodup := by
  unfold extractTableRefs
  exact nodup_foldl_dedupAdd _ [] List.nodup_nil

theorem handleQueryTool_invalid (env : ClientEnv) (sink : Sink) (enabled : Bool)
    (sql : Str) (h : (validateSqlQuery sql).isValid = false) :
    handleQueryTool env sink enabled sql =
      ([], ⟨true, "Security validation failed:\n".data ++
        joinErrors (validateSqlQuery sql).errors, []⟩) := by
  unfold handleQueryTool
  simp [h]

/-! ### The claims -/

/-- C1.  The claim says a federated statement whose elevated-path
re-validation fails is rejected with no `BEGIN` and no execution.  The code
violates this: `sqlNestedTail` passes the outer validation (its trailing
whitespace is trimmed there) and is classified federated, the secure path
rejects it for nested modifications without issuing any command — but the
router's fallback `catch` swallows that rejection and the traditional path
issues a read-write `BEGIN` and executes the statement. -/
theorem revalidation_failure_reaches_fallback :
    validateSelectOnlyQuery sqlNestedTail = true ∧
    containsNestedModifications sqlNestedTail = true ∧
    executeSecureSpectrumQuery envFedOk sqlNestedTail =
      ([], .error "Query contains nested modification statements which are not allowed".data) ∧
    executeSpectrumQuery envFedOk none true sqlNestedTail =
      ([Cmd.lookup "ext_schema".data "ext_table".data, Cmd.beginRW, Cmd.execQ,
        Cmd.commitTx], .ok [7]) :=
  ⟨by decide, by decide, by decide, by decide⟩

/-- C2.  The claim says a validated non-federated statement produces
exactly one `BEGIN TRANSACTION READ ONLY`, one execute, and one `COMMIT`
xor `ROLLBACK`, even when the observability sink fails.  The code violates
this: the awaited sink info-log sits inside the `try` after `COMMIT`, so a
sink failure triggers the `catch` and a `ROLLBACK` is issued after the
successful `COMMIT`, and the committed run surfaces an error. -/
theorem sink_failure_double_terminator :
    executeSpectrumQuery envAllOk (some true) true "select a from t".data =
      ([Cmd.lookup "public".data "t".data, Cmd.beginRO, Cmd.execQ, Cmd.commitTx,
        Cmd.rollbackTx], .error "sink failure".data) ∧
    Cmd.commitTx ∈ (executeSpectrumQuery envAllOk (some true) true "select a from t".data).1 ∧
    Cmd.rollbackTx ∈ (executeSpectrumQuery envAllOk (some true) true "select a from t".data).1 :=
  ⟨by decide, by decide, by decide⟩

/-- C3.  For every validated statement, if the federated-catalog lookup
loop raises, the statement is classified as not federated, the read-only
path (`BEGIN TRANSACTION READ ONLY`, execute, `COMMIT`) is taken, no
read-write `BEGIN` is ever issued, and the catalog failure is not surfaced:
the caller receives the rows. -/
theorem catalog_failure_readonly_failsafe (env : ClientEnv) (sink : Sink)
    (sql e : Str) (rows : List DatabaseRow)
    (hval : validateSelectOnlyQuery sql = true)
    (hcat : (catalogLoop env (extractTableRefs sql)).2 = Except.error e)
    (hbeg : env.beginRO = Except.ok ())
    (hrun : env.runQuery = Except.ok rows)
    (hcom : env.commitTx = Except.ok ())
    (hsink : sinkCall sink = Except.ok ()) :
    (isExternalTableQuery env sql).2 = false ∧
    executeSpectrumQuery env sink true sql =
      ((isExternalTableQuery env sql).1 ++ [Cmd.beginRO, Cmd.execQ, Cmd.commitTx],
        Except.ok rows) ∧
    Cmd.beginRW ∉ (executeSpectrumQuery env sink true sql).1 := by
  have hext : isExternalTableQuery env sql =
      ((catalogLoop env (extractTableRefs sql)).1, false) := by
    unfold isExternalTableQuery
    cases hp : catalogLoop env (extractTableRefs sql) with
    | mk t r =>
      rw [hp] at hcat
      simp only at hcat
      subst hcat
      simp
  have hblock : readOnlyBlockLogged env sink =
      ([Cmd.beginRO, Cmd.execQ, Cmd.commitTx], Except.ok rows) := by
    unfold readOnlyBlockLogged
    rw [hbeg, hrun, hcom, hsink]
  have hmain : executeSpectrumQuery env sink true sql =
      ((isExternalTableQuery env sql).1 ++ [Cmd.beginRO, Cmd.execQ, Cmd.commitTx],
        Except.ok rows) := by
    unfold executeSpectrumQuery
    rw [hval]
    simp [hext, hblock]
  refine ⟨by rw [hext], hmain, ?_⟩
  rw [hmain, hext]
  simp only [List.mem_append]
  rintro (hmem | hmem)
  · obtain ⟨s, tb, heq⟩ := catalogLoop_trace_lookups env _ _ hmem
    exact absurd heq (by simp)
  · simp at hmem

/-- Witness for C3: with every catalog lookup throwing `timeout` and a
healthy connection, `select a from t` is classified non-federated and
completes on the read-only path. -/
theorem catalog_failure_readonly_failsafe_witness :
    (isExternalTableQuery envCatalogDown "select a from t".data).2 = false ∧
    executeSpectrumQuery envCatalogDown none true "select a from t".data =
      ((isExternalTableQuery envCatalogDown "select a from t".data).1 ++
        [Cmd.beginRO, Cmd.execQ, Cmd.commitTx], Except.ok [7]) ∧
    Cmd.beginRW ∉ (executeSpectrumQuery envCatalogDown none true "select a from t".data).1 :=
  catalog_failure_readonly_failsafe envCatalogDown none "select a from t".data
    "timeout".data [7] (by decide) (by decide) rfl rfl rfl rfl

/-- C4, counterexample.  The claim says the error surfaced after a failed
execute whose rollback also fails is the original execution failure; on
this run the surfaced error wraps the rollback failure (`connection lost`),
not the execution failure (`syntax error near x`). -/
theorem rollback_error_masks_execution_error :
    executeSpectrumQuery envExecRollbackFail none false "select 1 from t".data =
      ([Cmd.beginRO, Cmd.execQ, Cmd.rollbackTx],
        Except.error (wrapFail "connection lost".data)) ∧
    envExecRollbackFail.runQuery = Except.error "syntax error near x".data ∧
    wrapFail "connection lost".data ≠ wrapFail "syntax error near x".data :=
  ⟨by decide, by decide, by decide⟩

/-- C4, amended.  On the read-only path, when the execute step fails and
the `ROLLBACK` attempt itself raises, the error surfaced to the caller is
the rollback failure (wrapped as `Failed to execute query: ...`), which
replaces and masks the original execution failure. -/
theorem rollback_error_replaces_execution_error (env : ClientEnv) (sink : Sink)
    (sql e1 e2 : Str)
    (hval : validateSelectOnlyQuery sql = true)
    (hbeg : env.beginRO = Except.ok ())
    (hrun : env.runQuery = Except.error e1)
    (hrb : env.rollbackTx = Except.error e2)
    (hsink : sinkCall sink = Except.ok ()) :
    executeSpectrumQuery env sink false sql =
      ([Cmd.beginRO, Cmd.execQ, Cmd.rollbackTx], Except.error (wrapFail e2)) := by
  have hblock : readOnlyBlockPlain env =
      ([Cmd.beginRO, Cmd.execQ, Cmd.rollbackTx], Except.error e2) := by
    unfold readOnlyBlockPlain
    rw [hbeg, hrun, hrb]
  unfold executeSpectrumQuery
  rw [hval]
  simp [hblock, outerCatch, hsink]

/-- Witness for the amended C4: executing fails with `syntax error near x`,
the rollback fails with `connection lost`, and the surfaced error wraps the
latter. -/
theorem rollback_error_replaces_execution_error_witness :
    validateSelectOnlyQuery "select 1 from t".data = true ∧
    executeSpectrumQuery envExecRollbackFail none false "select 1 from t".data =
      ([Cmd.beginRO, Cmd.execQ, Cmd.rollbackTx],
        Except.error (wrapFail "connection lost".data)) :=
  ⟨by decide,
   rollback_error_replaces_execution_error envExecRollbackFail none
     "select 1 from t".data "syntax error near x".data "connection lost".data
     (by decide) rfl rfl rfl rfl⟩

/-- C5, counterexample.  The claim says any SQL containing one of the
prohibited keywords as a whole word is rejected; but `select update`
contains the whole word `update` (at the end of the text, so not followed
by the whitespace the regex requires) and `validateSelectOnlyQuery`
accepts it. -/
theorem whole_word_keyword_accepted :
    containsWholeWord "update".data "select update".data = true ∧
    validateSelectOnlyQuery "select update".data = true :=
  ⟨by decide, by decide⟩

/-- C5, amended.  For every SQL string in whose trimmed lower-cased text
one of the thirteen keywords appears at a word boundary followed
immediately by a whitespace character, `validateSelectOnlyQuery` returns
`false`, even when the statement starts with `SELECT`. -/
theorem keyword_then_ws_rejected (sql : Str)
    (h : containsKeywordThenWs kwsThirteen ((jsTrim sql).map jsToLower) = true) :
    validateSelectOnlyQuery sql = false := by
  have h1 : scanBoundary
      (fun l => (kwsMutate.any fun k => litThenWs k l) ||
        ((litThenWs "grant".data l || litThenWs "revoke".data l) ||
          (kwsExecLike.any fun k => litThenWs k l))) false
      ((jsTrim sql).map jsToLower) = true := by
    unfold containsKeywordThenWs at h
    refine scanBoundary_mono ?_ false _ h
    intro l hl
    simp only [kwsThirteen, List.any_append, Bool.or_eq_true] at hl
    simp only [Bool.or_eq_true]
    rcases hl with (hm | hgr) | hc
    · exact Or.inl hm
    · exact Or.inr (Or.inl (by simpa using hgr))
    · exact Or.inr (Or.inr hc)
  rw [scanBoundary_or, scanBoundary_or] at h1
  have h3 : patMutate ((jsTrim sql).map jsToLower) = true ∨
      patGrant ((jsTrim sql).map jsToLower) = true ∨
      patExecLike ((jsTrim sql).map jsToLower) = true := by
    simp only [Bool.or_eq_true] at h1
    rcases h1 with hm | hgr | hc
    · exact Or.inl hm
    · refine Or.inr (Or.inl ?_)
      refine scanBoundary_mono ?_ false _ hgr
      intro l hl
      simp only [Bool.or_eq_true] at hl ⊢
      tauto
    · exact Or.inr (Or.inr hc)
  unfold validateSelectOnlyQuery
  rcases h3 with h | h | h <;> simp [h]

/-- Witness for the amended C5: `select a drop b` contains `drop` followed
by whitespace and is rejected. -/
theorem keyword_then_ws_rejected_witness :
    containsKeywordThenWs kwsThirteen
      ((jsTrim "select a drop b".data).map jsToLower) = true ∧
    validateSelectOnlyQuery "select a drop b".data = false :=
  ⟨by decide, keyword_then_ws_rejected "select a drop b".data (by decide)⟩

/-- C6.  A statement rejected by validation never reaches the connection
provider: if the entry validator rejects, `handleQueryTool` returns a
structured security rejection with an empty command trace; and if the
router's own SELECT-only validation rejects, the router issues no command
and returns an error, never rows. -/
theorem rejected_statement_no_provider_calls (env : ClientEnv) (sink : Sink)
    (enabled : Bool) (sql : Str) :
    ((validateSqlQuery sql).isValid = false →
      handleQueryTool env sink enabled sql =
        ([], ⟨true, "Security validation failed:\n".data ++
          joinErrors (validateSqlQuery sql).errors, []⟩)) ∧
    (validateSelectOnlyQuery sql = false →
      (executeSpectrumQuery env sink enabled sql).1 = [] ∧
      ∀ rows, (executeSpectrumQuery env sink enabled sql).2 ≠ Except.ok rows) := by
  constructor
  · exact handleQueryTool_invalid env sink enabled sql
  · intro h
    unfold executeSpectrumQuery
    rw [h]
    unfold outerCatch
    cases hs : sinkCall sink <;> simp

/-- Witness for C6: `DROP TABLE users` is rejected by both validators with
zero calls to the connection provider. -/
theorem rejected_statement_no_provider_calls_witness :
    (validateSqlQuery "DROP TABLE users".data).isValid = false ∧
    handleQueryTool envAllOk none true "DROP TABLE users".data =
      ([], ⟨true, "Security validation failed:\n".data ++
        joinErrors (validateSqlQuery "DROP TABLE users".data).errors, []⟩) ∧
    validateSelectOnlyQuery "DROP TABLE users".data = false ∧
    (executeSpectrumQuery envAllOk none true "DROP TABLE users".data).1 = [] :=
  ⟨by decide,
   (rejected_statement_no_provider_calls envAllOk none true _).1 (by decide),
   by decide,
   ((rejected_statement_no_provider_calls envAllOk none true _).2 (by decide)).1⟩

/-- C7, counterexample.  The claim says `containsNestedModification`
returns `true` exactly when a mutation keyword appears immediately after an
opening parenthesis; but in `select a from (merge)` the keyword `merge`
stands immediately after `(` and the function returns `false` (the regex
also requires a whitespace character after the keyword). -/
theorem nested_keyword_without_ws_not_flagged :
    kwImmediatelyAfterParen "select a from (merge)".data = true ∧
    containsNestedModifications "select a from (merge)".data = false :=
  ⟨by decide, by decide⟩

/-- C7, amended.  `containsNestedModifications` returns `true` exactly when
a mutation keyword followed by a whitespace character appears after an
opening parenthesis separated only by whitespace (`parenKwAt` at some
position of the lower-cased text); the `WITH <name> AS (` pattern is
subsumed by this and adds no matches.  In particular the nested INSERT and
the CTE DELETE of the claim are flagged and the plain SELECT is not. -/
theorem containsNestedModifications_paren_only :
    (∀ s : Str, containsNestedModifications s =
      anyTail parenKwAt (s.map jsToLower)) ∧
    containsNestedModifications "SELECT * FROM (INSERT INTO t VALUES (1))".data = true ∧
    containsNestedModifications "WITH x AS (DELETE FROM t RETURNING *) SELECT * FROM x".data = true ∧
    containsNestedModifications "SELECT * FROM users WHERE id = 1".data = false := by
  refine ⟨?_, by decide, by decide, by decide⟩
  intro s
  unfold containsNestedModifications
  cases h1 : anyTail parenKwAt (s.map jsToLower) with
  | false =>
    cases h2 : anyTail withKwAt (s.map jsToLower) with
    | false => simp [h1, h2]
    | true => exact absurd (anyTail_withKwAt_paren h2) (by simp [h1])
  | true => simp [h1]

/-- C8.  With a catalog oracle that never fails, the federation classifier
returns `true` iff at least one of the unique extracted `(schema, table)`
references (unqualified tables defaulted to `public`, duplicates removed)
matches the federated-tables catalog; and the extracted reference list is
duplicate-free. -/
theorem federated_iff_some_ref_matches (env : ClientEnv) (sql : Str)
    (hcat : ∀ r, ∃ n, env.catalog r = Except.ok n) :
    ((isExternalTableQuery env sql).2 = true ↔
      ∃ r ∈ extractTableRefs sql, catHit env r = true) ∧
    (extractTableRefs sql).Nodup := by
  refine ⟨?_, extractTableRefs_nodup sql⟩
  have hloop := catalogLoop_total env hcat (extractTableRefs sql)
  unfold isExternalTableQuery
  cases hp : catalogLoop env (extractTableRefs sql) with
  | mk t r =>
    rw [hp] at hloop
    simp only at hloop
    subst hloop
    simp [List.any_eq_true]

/-- Witness for C8: on `SELECT * FROM ext_schema.ext_table` with a
total catalog marking exactly that table federated, the equivalence and
the duplicate-freeness hold. -/
theorem federated_iff_some_ref_matches_witness :
    ((isExternalTableQuery envFedOk "SELECT * FROM ext_schema.ext_table".data).2 = true ↔
      ∃ r ∈ extractTableRefs "SELECT * FROM ext_schema.ext_table".data,
        catHit envFedOk r = true) ∧
    (extractTableRefs "SELECT * FROM ext_schema.ext_table".data).Nodup :=
  federated_iff_some_ref_matches envFedOk "SELECT * FROM ext_schema.ext_table".data
    (fun _ => ⟨_, rfl⟩)

/-- C9.  Every `ValidationResult` produced by `validateSqlQuery` or
`validateIdentifier` satisfies `isValid = (errors = [])`. -/
theorem validation_result_invariant (sql identifier : Str) (ty : IdKind) :
    ((validateSqlQuery sql).isValid = true ↔ (validateSqlQuery sql).errors = []) ∧
    ((validateIdentifier identifier ty).isValid = true ↔
      (validateIdentifier identifier ty).errors = []) := by
  constructor
  · unfold validateSqlQuery
    split
    · simp
    · by_cases hn : jsTrim (List.map jsToLower sql) = [] <;>
        simp [hn, List.isEmpty_iff]
  · unfold validateIdentifier
    split
    · simp
    · simp [List.isEmpty_iff]

/-- C10, counterexample.  The claim says any SQL containing a block comment
is rejected by the entry validator before any database call; but a block
comment spanning two lines escapes the injection regex (whose `.` cannot
cross a line terminator), passes both validators, and reaches the database:
a read-only transaction is opened and the statement executed. -/
theorem multiline_comment_reaches_database :
    containsBlockCommentAnywhere sqlMultilineComment = true ∧
    (validateSqlQuery sqlMultilineComment).isValid = true ∧
    validateSelectOnlyQuery sqlMultilineComment = true ∧
    (handleQueryTool envAllOk none false sqlMultilineComment).1 =
      [Cmd.beginRO, Cmd.execQ, Cmd.commitTx] :=
  ⟨by decide, by decide, by decide, by decide⟩

/-- C10, amended.  For every SQL string whose normalized text contains a
block comment opened and closed with no intervening line terminator, the
public query operation rejects the statement with zero calls to the
connection provider; and `validateSelectOnlyQuery` itself accepts a SELECT
preceded by a single-line leading block comment. -/
theorem inline_comment_rejected_before_database (env : ClientEnv) (sink : Sink)
    (enabled : Bool) (sql : Str)
    (h : blockCommentInline (jsTrim (sql.map jsToLower)) = true) :
    handleQueryTool env sink enabled sql =
      ([], ⟨true, "Security validation failed:\n".data ++
        joinErrors (validateSqlQuery sql).errors, []⟩) ∧
    validateSelectOnlyQuery "/* hint */ select 1 from t".data = true := by
  refine ⟨?_, by decide⟩
  apply handleQueryTool_invalid
  have hsql : ¬ sql = [] := by
    intro he
    subst he
    simp [jsTrim, blockCommentInline, anyTail] at h
  have hinj : injectionAny (jsTrim (sql.map jsToLower)) = true := by
    unfold injectionAny
    simp [h]
  have hne : ¬ jsTrim (sql.map jsToLower) = [] := by
    intro he
    rw [he] at h
    simp [blockCommentInline, anyTail] at h
  unfold validateSqlQuery
  rw [if_neg hsql, if_neg hne]
  simp [hinj]

/-- Witness for the amended C10: `select a /*x*/ from t` carries an inline
block comment and is rejected with an empty trace. -/
theorem inline_comment_rejected_before_database_witness :
    blockCommentInline (jsTrim ("select a /*x*/ from t".data.map jsToLower)) = true ∧
    handleQueryTool envAllOk none false "select a /*x*/ from t".data =
      ([], ⟨true, "Security validation failed:\n".data ++
        joinErrors (validateSqlQuery "select a /*x*/ from t".data).errors, []⟩) :=
  ⟨by decide,
   (inline_comment_rejected_before_database envAllOk none false
     "select a /*x*/ from t".data (by decide)).1⟩

end RedshiftMcp
